import Mathlib

/-!
Verification of the asynchronous batch aggregator of the repository
(package asyncbatch, file asyncbatch.go).

The development shallowly embeds the Go code:

* The configuration record, the With... option functions and the validation
  performed by NewBatchProcessor are embedded as pure functions.
  Go float64 ratios become rationals, time.Duration and int become Int.
  (The Go field names upperRatio and lowerRatio are rendered here as
  upperRat and lowerRat; the code of the functions is otherwise verbatim.)
* Add is embedded as a pure function of the lifecycle flag, the channel
  contents and the channel capacity (asyncbatch.go lines 145-155).
* The worker loop "run" (lines 181-274, with its helpers flushBatch,
  resetBatchAndTimer, initTimer and handleTimerExpired), the Shutdown
  sequence (lines 158-174) and accepted Add calls are embedded as a single
  small-step machine: one worker (numWorkers = 1; workers are identical and
  share only the ingress channel and the stop signal, so the per-invocation
  batch properties are those of this one loop) interleaved with producer
  and shutdown events.  Timers are modelled by an abstract integer clock:
  arming a timer records an absolute deadline, firing jumps the clock to
  the deadline, and a channel receive that is chosen while a timer is armed
  carries the instant at which it happens.  The two "!ok" branches of the
  Go code (channel closed) are unreachable while a worker runs, because
  close(bp.tasks) happens only after bp.wg.Wait() has seen every worker
  return; they are therefore not part of the machine.
-/

namespace AsyncBatch

/-- Configuration record of BatchProcessor (asyncbatch.go lines 12-25);
only the pure policy fields are kept.  maxSize and numWorkers are Go int,
the waits are time.Duration (int64 nanoseconds), the ratios are float64
rendered as rationals. -/
structure BPConfig where
  maxSize : Int
  upperRat : ℚ
  lowerRat : ℚ
  fixedWait : Int
  underfilledWait : Int
  numWorkers : Int
  deriving DecidableEq

/-- Defaults set by NewBatchProcessor (lines 90-99): maxSize 1000,
upperRatio 0.5, lowerRatio 0.1, fixedWait 5ms, underfilledWait 20ms,
numWorkers 1. -/
def defaultConfig : BPConfig :=
  { maxSize := 1000
    upperRat := 1/2
    lowerRat := 1/10
    fixedWait := 5000000
    underfilledWait := 20000000
    numWorkers := 1 }

/-- WithMaxSize (lines 31-37): sets maxSize only when size > 0. -/
def withMaxSize (size : Int) (bp : BPConfig) : BPConfig :=
  if 0 < size then { bp with maxSize := size } else bp

/-- WithUpperRatio (lines 40-46): sets upperRatio only when 0 < r ≤ 1. -/
def withUpperRat (r : ℚ) (bp : BPConfig) : BPConfig :=
  if 0 < r ∧ r ≤ 1 then { bp with upperRat := r } else bp

/-- WithLowerRatio (lines 49-55): sets lowerRatio only when 0 < r ≤ 1. -/
def withLowerRat (r : ℚ) (bp : BPConfig) : BPConfig :=
  if 0 < r ∧ r ≤ 1 then { bp with lowerRat := r } else bp

/-- WithFixedWait (lines 58-64): sets fixedWait only when duration > 0. -/
def withFixedWait (duration : Int) (bp : BPConfig) : BPConfig :=
  if 0 < duration then { bp with fixedWait := duration } else bp

/-- WithUnderfilledWait (lines 67-73): sets underfilledWait only when
duration > 0. -/
def withUnderfilledWait (duration : Int) (bp : BPConfig) : BPConfig :=
  if 0 < duration then { bp with underfilledWait := duration } else bp

/-- WithNumWorkers (lines 76-83): sets numWorkers only when n > 0. -/
def withNumWorkers (n : Int) (bp : BPConfig) : BPConfig :=
  if 0 < n then { bp with numWorkers := n } else bp

/-- Options are applied in order to the default configuration
(lines 101-105). -/
def applyOpts (opts : List (BPConfig → BPConfig)) : BPConfig :=
  opts.foldl (fun c o => o c) defaultConfig

/-- The validation sequence of NewBatchProcessor (lines 107-125), in source
order.  hasWorker models worker ≠ nil. -/
def validate (hasWorker : Bool) (bp : BPConfig) : Except String BPConfig :=
  if hasWorker = false then
    Except.error "worker function is required"
  else if bp.numWorkers < 1 ∨ 8 < bp.numWorkers then
    Except.error "numWorkers must be between 1 and 8"
  else if bp.upperRat ≤ 0 ∨ 1 < bp.upperRat then
    Except.error "upperRatio must be between 0 and 1"
  else if bp.lowerRat ≤ 0 ∨ 1 < bp.lowerRat then
    Except.error "lowerRatio must be between 0 and 1"
  else if bp.upperRat < bp.lowerRat then
    Except.error "upperRatio must be greater than or equal to lowerRatio"
  else if bp.underfilledWait ≤ bp.fixedWait then
    Except.error "fixedWait must be less than underfilledWait"
  else
    Except.ok bp

/-- NewBatchProcessor (lines 86-142): defaults, option application, then
validation.  The returned configuration is what the getter methods
(lines 277-283), in particular MaxSize, expose. -/
def newBatchProcessor (hasWorker : Bool) (opts : List (BPConfig → BPConfig)) :
    Except String BPConfig :=
  validate hasWorker (applyOpts opts)

/-- The ingress channel capacity chosen at line 127-130:
maxSize·numWorkers·2, floored at maxSize·2. -/
def bufferSize (bp : BPConfig) : Int :=
  let b := bp.maxSize * bp.numWorkers * 2
  if b < bp.maxSize * 2 then bp.maxSize * 2 else b

/-- Boolean success of the constructor. -/
def exceptOk : Except String BPConfig → Bool
  | Except.ok _ => true
  | Except.error _ => false

/-- The two error kinds Add can return (lines 145-155): the
"batch processor is closed" error and the "task channel is full" error. -/
inductive AddErr where
  | closed
  | queueFull
  deriving DecidableEq

/-- Add (lines 145-155): reject when closed; otherwise a non-blocking send
on the tasks channel, which succeeds exactly when the channel holds fewer
than cap items.  Returns the error (if any) and the new channel contents. -/
def addGo {T : Type} (closedFlag : Bool) (cap : Nat) (queue : List T) (task : T) :
    Option AddErr × List T :=
  if closedFlag then
    (some AddErr.closed, queue)
  else if queue.length < cap then
    (none, queue ++ [task])
  else
    (some AddErr.queueFull, queue)

/-! Section: The worker-loop machine -/

/-- Machine-level configuration: the policy values a running processor
uses.  The two thresholds are constants of a run, exactly as in the
source: lowerThreshold is computed once before the loop (line 184) and
int(maxSize·upperRatio) only depends on immutable fields (line 202); both
are derived from a ratio policy by mkMConfig below.  Waits are abstract
integer time units; cap is the tasks channel capacity. -/
structure MConfig where
  maxSize : Nat
  upperThreshold : Nat
  lowerThreshold : Nat
  fixedWait : Int
  underfilledWait : Int
  cap : Nat
  deriving DecidableEq

/-- Build the machine configuration from the ratio policy:
upperThreshold is int(float64(maxSize)·upperRatio) of line 202 and
lowerThreshold is int(math.Max(1, math.Floor(maxSize·lowerRatio))) of
line 184.  Go int() truncates toward zero; on the nonnegative products
produced by a validated configuration (maxSize > 0, ratios > 0)
truncation and floor agree. -/
def mkMConfig (maxSize : Nat) (upperR lowerR : ℚ) (fixedW underW : Int)
    (cap : Nat) : MConfig :=
  { maxSize := maxSize
    upperThreshold := (⌊(maxSize : ℚ) * upperR⌋).toNat
    lowerThreshold := max 1 (⌊(maxSize : ℚ) * lowerR⌋).toNat
    fixedWait := fixedW
    underfilledWait := underW
    cap := cap }

/-- The flush condition of line 202:
len(batch) ≥ maxSize or len(batch) ≥ int(maxSize·upperRatio). -/
def shouldFlush (c : MConfig) (n : Nat) : Prop :=
  c.maxSize ≤ n ∨ c.upperThreshold ≤ n

instance (c : MConfig) (n : Nat) : Decidable (shouldFlush c n) := by
  unfold shouldFlush; infer_instance

/-- Control points of the worker goroutine.
top: start of a loop iteration, the stop check of line 194 still to run.
chk: stop check passed while the signal was open, threshold check of
line 202 pending.
sel: blocked in the select of lines 211-221 with the fixedWait timer armed.
usel: blocked in the select of lines 258-273 inside handleTimerExpired with
the underfilledWait timer armed.
done: the goroutine has returned. -/
inductive Ctrl where
  | top
  | chk
  | sel
  | usel
  | done
  deriving DecidableEq

/-- One recorded invocation of the user worker callback: the abstract time
at which it happens, whether it is the residual drain call of Shutdown
(line 171) as opposed to a worker-loop flushBatch call, and the batch. -/
structure Emit (T : Type) where
  time : Int
  fromDrain : Bool
  batch : List T
  deriving DecidableEq

/-- Global state: the tasks channel contents, the closed flag read by Add,
the stop signal, whether the residual drain of Shutdown has run, the worker
control point, the worker-local batch, the armed timer as an absolute
deadline (none when the timer is stopped), the abstract clock, and the
sequence of worker-callback invocations so far. -/
structure MState (T : Type) where
  queue : List T
  closedFlag : Bool
  stop : Bool
  drained : Bool
  ctrl : Ctrl
  batch : List T
  deadline : Option Int
  now : Int
  out : List (Emit T)
  deriving DecidableEq

/-- Initial state: everything empty, worker at the top of its loop. -/
def initState (T : Type) : MState T :=
  { queue := []
    closedFlag := false
    stop := false
    drained := false
    ctrl := Ctrl.top
    batch := []
    deadline := none
    now := 0
    out := [] }

/-- flushBatch (lines 226-230): invoke the callback only on a non-empty
batch.  Also used for the guarded residual call of Shutdown (lines 170-172). -/
def emitAt {T : Type} (out : List (Emit T)) (time : Int) (fromDrain : Bool)
    (b : List T) : List (Emit T) :=
  if b.isEmpty then out else out ++ [⟨time, fromDrain, b⟩]

/-- Events of an interleaved execution.  Worker events carry the instant at
which they are scheduled where that instant is otherwise unconstrained. -/
inductive Ev (T : Type) where
  | add (x : T)
  | shutdown
  | drain
  | passStop
  | stopExit
  | thresholdFlush
  | armTimer (t : Int)
  | recv (t : Int)
  | fixedFire
  | urecv (t : Int)
  | ufire
  | ustop
  deriving DecidableEq

/-- One interleaving step.  Returns none when the event is not enabled in
the given state.

add x: an Add call that succeeds (lines 149-151); Add calls that return an
  error leave the state unchanged and need no event.
shutdown: the first Shutdown call up to wg.Wait (lines 159-161): sets the
  closed flag and closes the stop channel.
drain: the tail of Shutdown (lines 165-172), enabled only after the worker
  has returned: the residual channel contents are passed to the callback in
  a single guarded call.
passStop: the select of lines 194-199 takes its default branch, which in Go
  happens exactly when stop is not closed at that instant.
stopExit: the same select takes the stop branch (stop closed): flush the
  local batch and return (lines 195-197).
thresholdFlush: line 202 with shouldFlush true: flushBatch then
  resetBatchAndTimer (fresh batch, timer stopped).
armTimer t: line 209, initTimer: the timer is (re)armed at fixedWait from
  the current instant t, and the worker blocks in the select of line 211.
recv t: the select of line 211 receives a task at instant t (not after the
  armed deadline, otherwise the timer fires): append and loop (line 217).
fixedFire: the fixedWait timer of the line 211 select fires;
  handleTimerExpired (lines 250-274): when the batch has reached
  lowerThreshold, flush and reset; otherwise re-arm the timer at
  underfilledWait (line 257) and block in the inner select.
urecv t: the inner select receives a task at instant t: append it and
  return to the loop top with the timer untouched (line 264).
ufire: the underfilledWait timer fires: flush whatever is present and
  reset batch and timer (lines 266-268).
ustop: the inner select observes stop: flushBatch(batch) and return the
  batch and timer unchanged to the loop (lines 270-272). -/
def step {T : Type} (c : MConfig) (s : MState T) : Ev T → Option (MState T)
  | Ev.add x =>
      if s.closedFlag = false ∧ s.queue.length < c.cap then
        some { s with queue := s.queue ++ [x] }
      else none
  | Ev.shutdown =>
      if s.closedFlag = false then
        some { s with closedFlag := true, stop := true }
      else none
  | Ev.drain =>
      if s.stop = true ∧ s.ctrl = Ctrl.done ∧ s.drained = false then
        some { s with out := emitAt s.out s.now true s.queue
                      queue := []
                      drained := true }
      else none
  | Ev.passStop =>
      if s.ctrl = Ctrl.top ∧ s.stop = false then
        some { s with ctrl := Ctrl.chk }
      else none
  | Ev.stopExit =>
      if s.ctrl = Ctrl.top ∧ s.stop = true then
        some { s with out := emitAt s.out s.now false s.batch
                      ctrl := Ctrl.done }
      else none
  | Ev.thresholdFlush =>
      if s.ctrl = Ctrl.chk ∧ shouldFlush c s.batch.length then
        some { s with out := emitAt s.out s.now false s.batch
                      batch := []
                      deadline := none
                      ctrl := Ctrl.top }
      else none
  | Ev.armTimer t =>
      if s.ctrl = Ctrl.chk ∧ ¬ shouldFlush c s.batch.length ∧ s.now ≤ t then
        some { s with now := t
                      deadline := some (t + c.fixedWait)
                      ctrl := Ctrl.sel }
      else none
  | Ev.recv t =>
      match s.queue, s.deadline with
      | x :: rest, some d =>
          if s.ctrl = Ctrl.sel ∧ s.now ≤ t ∧ t ≤ d then
            some { s with now := t
                          queue := rest
                          batch := s.batch ++ [x]
                          ctrl := Ctrl.top }
          else none
      | _, _ => none
  | Ev.fixedFire =>
      match s.deadline with
      | some d =>
          if s.ctrl = Ctrl.sel then
            if c.lowerThreshold ≤ s.batch.length then
              some { s with now := d
                            out := emitAt s.out d false s.batch
                            batch := []
                            deadline := none
                            ctrl := Ctrl.top }
            else
              some { s with now := d
                            deadline := some (d + c.underfilledWait)
                            ctrl := Ctrl.usel }
          else none
      | none => none
  | Ev.urecv t =>
      match s.queue, s.deadline with
      | x :: rest, some d =>
          if s.ctrl = Ctrl.usel ∧ s.now ≤ t ∧ t ≤ d then
            some { s with now := t
                          queue := rest
                          batch := s.batch ++ [x]
                          ctrl := Ctrl.top }
          else none
      | _, _ => none
  | Ev.ufire =>
      match s.deadline with
      | some d =>
          if s.ctrl = Ctrl.usel then
            some { s with now := d
                          out := emitAt s.out d false s.batch
                          batch := []
                          deadline := none
                          ctrl := Ctrl.top }
          else none
      | none => none
  | Ev.ustop =>
      if s.ctrl = Ctrl.usel ∧ s.stop = true then
        some { s with out := emitAt s.out s.now false s.batch
                      ctrl := Ctrl.top }
      else none

/-- Run a trace from a given state. -/
def runFrom {T : Type} (c : MConfig) (s : MState T) (evs : List (Ev T)) :
    Option (MState T) :=
  evs.foldlM (step c) s

/-- Run a trace from the initial state. -/
def run {T : Type} (c : MConfig) (evs : List (Ev T)) : Option (MState T) :=
  runFrom c (initState T) evs

/-- Well-formedness facts every validated configuration enjoys and the
batch-size invariants rely on: a positive maxSize and a lowerThreshold not
above maxSize (mkMConfig_wf below derives both from the validated ranges). -/
def MConfig.wf (c : MConfig) : Prop :=
  1 ≤ c.maxSize ∧ c.lowerThreshold ≤ c.maxSize

instance (c : MConfig) : Decidable c.wf := by
  unfold MConfig.wf; infer_instance

/-- The inductive invariant of the machine: the worker batch never exceeds
maxSize (strictly below it while blocked in a select), every recorded
callback invocation is non-empty, worker-loop invocations are bounded by
maxSize and the drain invocation by the channel capacity, the channel
never exceeds its capacity, and the residual drain runs at most once. -/
def Inv {T : Type} (c : MConfig) (s : MState T) : Prop :=
  s.batch.length ≤ c.maxSize ∧
  (s.ctrl = Ctrl.sel → s.batch.length < c.maxSize) ∧
  (s.ctrl = Ctrl.usel → s.batch.length < c.lowerThreshold) ∧
  s.queue.length ≤ c.cap ∧
  (∀ em ∈ s.out, em.batch ≠ [] ∧
    (em.fromDrain = false → em.batch.length ≤ c.maxSize) ∧
    (em.fromDrain = true → em.batch.length ≤ c.cap)) ∧
  (s.out.filter (fun em => em.fromDrain)).length ≤ (if s.drained then 1 else 0)

/-! Section: Concrete configurations and traces used by the scenario claims -/

/-- Default-policy machine configuration: maxSize 1000, upperRatio 0.5,
lowerRatio 0.1, fixedWait 5, underfilledWait 20 (abstract milliseconds),
channel capacity 1000·1·2; thresholds int(1000·0.5) = 500 and
max(1, int(1000·0.1)) = 100 (equality with mkMConfig is the theorem
bigCfg_eq below). -/
def bigCfg : MConfig :=
  { maxSize := 1000, upperThreshold := 500, lowerThreshold := 100
    fixedWait := 5, underfilledWait := 20, cap := 2000 }

/-- maxSize 2 with defaults otherwise and one worker: channel capacity
max(2·1·2, 2·2) = 4, thresholds int(2·0.5) = 1 and max(1, int(2·0.1)) = 1
(theorem tinyCfg_eq below). -/
def tinyCfg : MConfig :=
  { maxSize := 2, upperThreshold := 1, lowerThreshold := 1
    fixedWait := 5, underfilledWait := 20, cap := 4 }

/-- Scenario S3 configuration: maxSize 6, one worker, defaults otherwise;
channel capacity 6·1·2 = 12, thresholds int(6·0.5) = 3 and
max(1, int(6·0.1)) = 1 (theorem s3Cfg_eq below). -/
def s3Cfg : MConfig :=
  { maxSize := 6, upperThreshold := 3, lowerThreshold := 1
    fixedWait := 5, underfilledWait := 20, cap := 12 }

/-- A schedule in which one accepted item is handed to the callback twice:
the item is received, the fixedWait timer expires with the batch below
lowerThreshold, and Shutdown closes the stop channel while the worker sits
in the underfilled select; the worker flushes the batch in the stop case of
handleTimerExpired, returns it unchanged, and the loop top flushes the very
same batch again. -/
def dupTrace : List (Ev ℕ) :=
  [Ev.add 7, Ev.passStop, Ev.armTimer 0, Ev.recv 0, Ev.passStop,
   Ev.armTimer 0, Ev.fixedFire, Ev.shutdown, Ev.ustop, Ev.stopExit,
   Ev.drain]

/-- Scenario S3 schedule: 9 items accepted back-to-back before any timer
expiry, then the worker drains them; the loop flushes every time the batch
reaches int(6·0.5) = 3 items. -/
def s3Trace : List (Ev ℕ) :=
  [Ev.add 1, Ev.add 2, Ev.add 3, Ev.add 4, Ev.add 5, Ev.add 6, Ev.add 7,
   Ev.add 8, Ev.add 9,
   Ev.passStop, Ev.armTimer 0, Ev.recv 0,
   Ev.passStop, Ev.armTimer 0, Ev.recv 0,
   Ev.passStop, Ev.armTimer 0, Ev.recv 0,
   Ev.passStop, Ev.thresholdFlush,
   Ev.passStop, Ev.armTimer 0, Ev.recv 0,
   Ev.passStop, Ev.armTimer 0, Ev.recv 0,
   Ev.passStop, Ev.armTimer 0, Ev.recv 0,
   Ev.passStop, Ev.thresholdFlush,
   Ev.passStop, Ev.armTimer 0, Ev.recv 0,
   Ev.passStop, Ev.armTimer 0, Ev.recv 0,
   Ev.passStop, Ev.armTimer 0, Ev.recv 0,
   Ev.passStop, Ev.thresholdFlush]

/-- Three items accepted, Shutdown before the worker dequeues anything:
the residual drain hands all three to the callback in one batch although
maxSize is 2. -/
def drainTrace3 : List (Ev ℕ) :=
  [Ev.add 10, Ev.add 20, Ev.add 30, Ev.shutdown, Ev.stopExit, Ev.drain]

/-- Four items accepted (the channel capacity), Shutdown before the worker
dequeues anything: the residual drain makes one callback invocation with
all four items instead of two maxSize-chunks. -/
def drainTrace4 : List (Ev ℕ) :=
  [Ev.add 1, Ev.add 2, Ev.add 3, Ev.add 4, Ev.shutdown, Ev.stopExit,
   Ev.drain]

/-- Prefix of the underfilled-deadline schedule: one item is in the batch
and the fixedWait timer has expired, so the worker is in the underfilled
select with the absolute deadline 25 = 5 + 20. -/
def underfillPre : List (Ev ℕ) :=
  [Ev.add 1, Ev.passStop, Ev.armTimer 0, Ev.recv 0, Ev.passStop,
   Ev.armTimer 0, Ev.fixedFire]

/-- Full underfilled-deadline schedule: a second item arrives at instant 24,
one unit before the underfilled deadline 25; the worker re-enters the loop,
initTimer re-arms the timer at fixedWait (deadline 29), that probe expires
into a fresh underfilled wait (deadline 49), and only then is the batch
flushed, at instant 49 > 25. -/
def underfillTrace : List (Ev ℕ) :=
  underfillPre ++
  [Ev.add 2, Ev.urecv 24, Ev.passStop, Ev.armTimer 24, Ev.fixedFire,
   Ev.ufire]

/-! Section: Helper lemmas -/

/-- Membership in the result of a guarded emission. -/
theorem mem_emitAt {T : Type} {out : List (Emit T)} {tim : Int} {fd : Bool}
    {b : List T} {em : Emit T} (h : em ∈ emitAt out tim fd b) :
    em ∈ out ∨ (b ≠ [] ∧ em = ⟨tim, fd, b⟩) := by
  cases b with
  | nil =>
      simp only [emitAt, List.isEmpty_nil, if_true] at h
      exact Or.inl h
  | cons a l =>
      have h2 : em ∈ out ∨ em = ⟨tim, fd, a :: l⟩ := by simpa [emitAt] using h
      rcases h2 with h1 | rfl
      · exact Or.inl h1
      · exact Or.inr ⟨by simp, rfl⟩

/-- A worker-loop emission does not change the drain-tagged sublist. -/
theorem filter_emitAt_false {T : Type} (out : List (Emit T)) (tim : Int)
    (b : List T) :
    (emitAt out tim false b).filter (fun em => em.fromDrain) =
      out.filter (fun em => em.fromDrain) := by
  cases b <;> simp [emitAt, List.filter_append]

/-- Any emission adds at most one drain-tagged element. -/
theorem length_filter_emitAt_le {T : Type} (out : List (Emit T)) (tim : Int)
    (fd : Bool) (b : List T) :
    ((emitAt out tim fd b).filter (fun em => em.fromDrain)).length ≤
      (out.filter (fun em => em.fromDrain)).length + 1 := by
  cases fd <;> cases b <;> simp [emitAt, List.filter_append]

/-- Any machine configuration built from a policy with maxSize ≥ 1 and
lowerRatio ≤ 1 (both guaranteed after validation) is well formed. -/
theorem mkMConfig_wf (maxSize : Nat) (upperR lowerR : ℚ) (fixedW underW : Int)
    (cap : Nat) (h1 : 1 ≤ maxSize) (h2 : lowerR ≤ 1) :
    (mkMConfig maxSize upperR lowerR fixedW underW cap).wf := by
  refine ⟨h1, ?_⟩
  show max 1 (⌊(maxSize : ℚ) * lowerR⌋).toNat ≤ maxSize
  have hfl : (⌊(maxSize : ℚ) * lowerR⌋ : ℤ) ≤ (maxSize : ℤ) := by
    calc ⌊(maxSize : ℚ) * lowerR⌋ ≤ ⌊(maxSize : ℚ)⌋ :=
          Int.floor_le_floor (mul_le_of_le_one_right (by positivity) h2)
      _ = (maxSize : ℤ) := Int.floor_natCast maxSize
  have h3 : (⌊(maxSize : ℚ) * lowerR⌋).toNat ≤ maxSize := Int.toNat_le.mpr hfl
  omega

/-- bigCfg is the machine configuration of the default policy. -/
theorem bigCfg_eq : bigCfg = mkMConfig 1000 (1/2) (1/10) 5 20 2000 := by
  simp [bigCfg, mkMConfig]
  norm_num
  decide

/-- tinyCfg is the machine configuration of maxSize 2 with defaults. -/
theorem tinyCfg_eq : tinyCfg = mkMConfig 2 (1/2) (1/10) 5 20 4 := by
  simp [tinyCfg, mkMConfig]
  norm_num

/-- s3Cfg is the machine configuration of scenario S3. -/
theorem s3Cfg_eq : s3Cfg = mkMConfig 6 (1/2) (1/10) 5 20 12 := by
  simp [s3Cfg, mkMConfig]
  norm_num
  decide

/-- Every step of the machine preserves the invariant. -/
theorem inv_step {T : Type} {c : MConfig} (hwf : c.wf) {s s1 : MState T}
    {e : Ev T} (hs : Inv c s) (h : step c s e = some s1) : Inv c s1 := by
  obtain ⟨hwf1, hwf2⟩ := hwf
  obtain ⟨hA, hB, hC, hD, hE, hF⟩ := hs
  cases e with
  | add x =>
      simp only [step] at h
      split at h
      · cases h
        rename_i hcond
        refine ⟨hA, hB, hC, ?_, hE, hF⟩
        simp only [List.length_append, List.length_cons, List.length_nil]
        omega
      · exact absurd h (by simp)
  | shutdown =>
      simp only [step] at h
      split at h
      · cases h
        exact ⟨hA, hB, hC, hD, hE, hF⟩
      · exact absurd h (by simp)
  | drain =>
      simp only [step] at h
      split at h
      · cases h
        rename_i hcond
        refine ⟨hA, hB, hC, by simp, ?_, ?_⟩
        · intro em hem
          rcases mem_emitAt hem with h1 | ⟨hne, rfl⟩
          · exact hE em h1
          · exact ⟨hne, fun hff => by simp at hff, fun _ => hD⟩
        · have h5 := length_filter_emitAt_le s.out s.now true s.queue
          have h6 : (List.filter (fun em => em.fromDrain) s.out).length = 0 := by
            have h7 := hF
            rw [hcond.2.2] at h7
            simpa using h7
          show (List.filter (fun em => em.fromDrain)
              (emitAt s.out s.now true s.queue)).length ≤ 1
          omega
      · exact absurd h (by simp)
  | passStop =>
      simp only [step] at h
      split at h
      · cases h
        exact ⟨hA, fun hh => by simp at hh, fun hh => by simp at hh, hD, hE, hF⟩
      · exact absurd h (by simp)
  | stopExit =>
      simp only [step] at h
      split at h
      · cases h
        refine ⟨hA, fun hh => by simp at hh, fun hh => by simp at hh, hD, ?_, ?_⟩
        · intro em hem
          rcases mem_emitAt hem with h1 | ⟨hne, rfl⟩
          · exact hE em h1
          · exact ⟨hne, fun _ => hA, fun htt => by simp at htt⟩
        · rw [filter_emitAt_false]
          exact hF
      · exact absurd h (by simp)
  | thresholdFlush =>
      simp only [step] at h
      split at h
      · cases h
        refine ⟨by simp, fun hh => by simp at hh, fun hh => by simp at hh, hD, ?_, ?_⟩
        · intro em hem
          rcases mem_emitAt hem with h1 | ⟨hne, rfl⟩
          · exact hE em h1
          · exact ⟨hne, fun _ => hA, fun htt => by simp at htt⟩
        · rw [filter_emitAt_false]
          exact hF
      · exact absurd h (by simp)
  | armTimer t =>
      simp only [step] at h
      split at h
      · cases h
        rename_i hcond
        have hlt : s.batch.length < c.maxSize := by
          have h1 := hcond.2.1
          simp only [shouldFlush, not_or, not_le] at h1
          exact h1.1
        exact ⟨hA, fun _ => hlt, fun hh => by simp at hh, hD, hE, hF⟩
      · exact absurd h (by simp)
  | recv t =>
      rcases hq : s.queue with _ | ⟨x, rest⟩
      · simp only [step, hq] at h
        exact Option.noConfusion h
      · rcases hd : s.deadline with _ | d
        · simp only [step, hq, hd] at h
          exact Option.noConfusion h
        · simp only [step, hq, hd] at h
          split at h
          · cases h
            rename_i hcond
            have hsel : s.batch.length < c.maxSize := hB hcond.1
            have hqlen : rest.length + 1 ≤ c.cap := by
              have h9 := hD
              rw [hq] at h9
              simpa using h9
            refine ⟨?_, fun hh => by simp at hh, fun hh => by simp at hh, ?_, hE, hF⟩
            · simp only [List.length_append, List.length_cons, List.length_nil]
              omega
            · show rest.length ≤ c.cap
              omega
          · exact absurd h (by simp)
  | fixedFire =>
      rcases hd : s.deadline with _ | d
      · simp only [step, hd] at h
        exact Option.noConfusion h
      · simp only [step, hd] at h
        split at h
        · rename_i hsel
          split at h
          · cases h
            refine ⟨by simp, fun hh => by simp at hh, fun hh => by simp at hh, hD, ?_, ?_⟩
            · intro em hem
              rcases mem_emitAt hem with h1 | ⟨hne, rfl⟩
              · exact hE em h1
              · exact ⟨hne, fun _ => hA, fun htt => by simp at htt⟩
            · rw [filter_emitAt_false]
              exact hF
          · cases h
            rename_i hlow
            refine ⟨hA, fun hh => by simp at hh, ?_, hD, hE, hF⟩
            intro hh
            show s.batch.length < c.lowerThreshold
            omega
        · exact absurd h (by simp)
  | urecv t =>
      rcases hq : s.queue with _ | ⟨x, rest⟩
      · simp only [step, hq] at h
        exact Option.noConfusion h
      · rcases hd : s.deadline with _ | d
        · simp only [step, hq, hd] at h
          exact Option.noConfusion h
        · simp only [step, hq, hd] at h
          split at h
          · cases h
            rename_i hcond
            have husel : s.batch.length < c.lowerThreshold := hC hcond.1
            have hqlen : rest.length + 1 ≤ c.cap := by
              have h9 := hD
              rw [hq] at h9
              simpa using h9
            refine ⟨?_, fun hh => by simp at hh, fun hh => by simp at hh, ?_, hE, hF⟩
            · simp only [List.length_append, List.length_cons, List.length_nil]
              omega
            · show rest.length ≤ c.cap
              omega
          · exact absurd h (by simp)
  | ufire =>
      rcases hd : s.deadline with _ | d
      · simp only [step, hd] at h
        exact Option.noConfusion h
      · simp only [step, hd] at h
        split at h
        · cases h
          refine ⟨by simp, fun hh => by simp at hh, fun hh => by simp at hh, hD, ?_, ?_⟩
          · intro em hem
            rcases mem_emitAt hem with h1 | ⟨hne, rfl⟩
            · exact hE em h1
            · exact ⟨hne, fun _ => hA, fun htt => by simp at htt⟩
          · rw [filter_emitAt_false]
            exact hF
        · exact absurd h (by simp)
  | ustop =>
      simp only [step] at h
      split at h
      · cases h
        refine ⟨hA, fun hh => by simp at hh, fun hh => by simp at hh, hD, ?_, ?_⟩
        · intro em hem
          rcases mem_emitAt hem with h1 | ⟨hne, rfl⟩
          · exact hE em h1
          · exact ⟨hne, fun _ => hA, fun htt => by simp at htt⟩
        · rw [filter_emitAt_false]
          exact hF
      · exact absurd h (by simp)

/-- The initial state satisfies the invariant. -/
theorem inv_initState {T : Type} (c : MConfig) : Inv c (initState T) := by
  refine ⟨?_, ?_, ?_, ?_, ?_, ?_⟩ <;> simp [initState]

/-- The invariant holds along every run. -/
theorem inv_runFrom {T : Type} {c : MConfig} (hwf : c.wf) :
    ∀ (evs : List (Ev T)) (s s1 : MState T),
      Inv c s → runFrom c s evs = some s1 → Inv c s1 := by
  intro evs
  induction evs with
  | nil =>
      intro s s1 hs h
      simp only [runFrom, List.foldlM_nil, Option.pure_def, Option.some.injEq] at h
      exact h ▸ hs
  | cons e evs ih =>
      intro s s1 hs h
      rw [runFrom, List.foldlM_cons] at h
      cases hstep : step c s e with
      | none => rw [hstep] at h; simp at h
      | some s2 =>
          rw [hstep] at h
          simp only [Option.bind_eq_bind, Option.some_bind] at h
          exact ih s2 s1 (inv_step hwf hs hstep) h

/-- The invariant holds in every reachable state. -/
theorem inv_run {T : Type} {c : MConfig} (hwf : c.wf) {evs : List (Ev T)}
    {s : MState T} (h : run c evs = some s) : Inv c s :=
  inv_runFrom hwf evs (initState T) s (inv_initState c) h

/-- Validation accepts the untouched default configuration. -/
theorem validate_default : validate true defaultConfig = Except.ok defaultConfig := by
  unfold validate
  rw [if_neg (by decide), if_neg (by decide), if_neg (by norm_num [defaultConfig]),
      if_neg (by norm_num [defaultConfig]), if_neg (by norm_num [defaultConfig]),
      if_neg (by decide)]

/-- Validation of the default configuration with lowerRatio replaced by an
in-range value r succeeds exactly when r does not exceed the default
upperRatio 0.5; otherwise the ordering check fires. -/
theorem validate_default_lowerRat (r : ℚ) (h0 : 0 < r) (h1 : r ≤ 1) :
    validate true { defaultConfig with lowerRat := r } =
      if 1/2 < r then
        Except.error "upperRatio must be greater than or equal to lowerRatio"
      else Except.ok { defaultConfig with lowerRat := r } := by
  have hnw : ({ defaultConfig with lowerRat := r }).numWorkers = 1 := rfl
  have hup : ({ defaultConfig with lowerRat := r }).upperRat = 1/2 := rfl
  have hlow : ({ defaultConfig with lowerRat := r }).lowerRat = r := rfl
  have hfw : ({ defaultConfig with lowerRat := r }).fixedWait = 5000000 := rfl
  have huw : ({ defaultConfig with lowerRat := r }).underfilledWait = 20000000 := rfl
  unfold validate
  rw [hnw, hup, hlow, hfw, huw,
      if_neg (by decide), if_neg (by decide), if_neg (by norm_num),
      if_neg (by push_neg; exact ⟨h0, h1⟩)]
  by_cases h2 : (1:ℚ)/2 < r
  · rw [if_pos h2, if_pos h2]
  · rw [if_neg h2, if_neg h2, if_neg (by decide)]

/-! Section: Claims -/

/-- C1: refutation trace for the no-item-loss claim.  With the default
policy, item 7 is accepted by Add, received by the worker, the fixedWait
probe expires with the batch below lowerThreshold, and Shutdown closes the
stop channel while the worker waits in the underfilled select.  The stop
case of handleTimerExpired flushes the batch and returns it unchanged
(asyncbatch.go lines 270-272), and the loop top then flushes the very same
batch again (lines 195-196): the accepted item is contained in two worker
invocations, not exactly one. -/
theorem c1_duplicate_delivery_on_stop :
    (run bigCfg dupTrace).map (fun s => s.out.map (fun em => em.batch)) =
      some [[7], [7]] ∧
    (run bigCfg dupTrace).map
        (fun s => (s.out.filter (fun em => em.batch.contains 7)).length) =
      some 2 := by decide

/-- C2: refutation of the batch-size upper bound as stated.  With maxSize 2
(capacity 4), three accepted items that are still queued when Shutdown runs
are passed to the callback in a single drain batch of length 3 > maxSize. -/
theorem c2_counterexample :
    (run tinyCfg drainTrace3).map
        (fun s => s.out.map (fun em => em.batch.length)) = some [3] ∧
    tinyCfg.maxSize = 2 ∧ ¬ (3 ≤ 2) := by decide

/-- C2 amended: every callback invocation carries at least one item; the
invocations issued by the worker loop are bounded by maxSize, while the
residual drain invocation of Shutdown is bounded only by the channel
capacity (maxSize·numWorkers·2) and may exceed maxSize. -/
theorem c2_batch_size_bound_amended {T : Type} (c : MConfig) (hwf : c.wf)
    (evs : List (Ev T)) (s : MState T) (h : run c evs = some s) :
    ∀ em ∈ s.out, 1 ≤ em.batch.length ∧
      (em.fromDrain = false → em.batch.length ≤ c.maxSize) ∧
      (em.fromDrain = true → em.batch.length ≤ c.cap) := by
  intro em hem
  obtain ⟨hne, hm, hc⟩ := (inv_run hwf h).2.2.2.2.1 em hem
  exact ⟨List.length_pos.mpr hne, hm, hc⟩

/-- C2 amended, witnessed on the drain trace of three items. -/
theorem c2_batch_size_bound_witness :
    1 ≤ (⟨0, true, [10, 20, 30]⟩ : Emit ℕ).batch.length ∧
    ((⟨0, true, [10, 20, 30]⟩ : Emit ℕ).fromDrain = false →
      (⟨0, true, [10, 20, 30]⟩ : Emit ℕ).batch.length ≤ tinyCfg.maxSize) ∧
    ((⟨0, true, [10, 20, 30]⟩ : Emit ℕ).fromDrain = true →
      (⟨0, true, [10, 20, 30]⟩ : Emit ℕ).batch.length ≤ tinyCfg.cap) :=
  c2_batch_size_bound_amended tinyCfg (by decide) drainTrace3
    ⟨[], true, true, true, Ctrl.done, [], none, 0, [⟨0, true, [10, 20, 30]⟩]⟩
    (by decide) ⟨0, true, [10, 20, 30]⟩ (by decide)

/-- C3: refutation of the per-chunk drain discipline.  With maxSize 2, four
residual items are handed to the callback by Shutdown in one invocation of
size 4, not in two chunks of at most maxSize. -/
theorem c3_counterexample :
    (run tinyCfg drainTrace4).map
        (fun s => s.out.map (fun em => (em.fromDrain, em.batch))) =
      some [(true, [1, 2, 3, 4])] ∧
    tinyCfg.maxSize = 2 ∧ ¬ ((4:Nat) ≤ 2) := by decide

/-- C3 amended: the residual drain of Shutdown calls the callback at most
once, with all residual items in one non-empty batch bounded only by the
channel capacity (asyncbatch.go lines 165-172 build a single remaining
slice and make a single guarded worker call). -/
theorem c3_shutdown_drain_amended {T : Type} (c : MConfig) (hwf : c.wf)
    (evs : List (Ev T)) (s : MState T) (h : run c evs = some s) :
    (s.out.filter (fun em => em.fromDrain)).length ≤ 1 ∧
    ∀ em ∈ s.out, em.fromDrain = true →
      em.batch ≠ [] ∧ em.batch.length ≤ c.cap := by
  obtain ⟨-, -, -, -, hE, hF⟩ := inv_run hwf h
  constructor
  · have h1 : (if s.drained then 1 else 0) ≤ 1 := by split <;> omega
    omega
  · intro em hem htt
    obtain ⟨hne, -, hc⟩ := hE em hem
    exact ⟨hne, hc htt⟩

/-- C3 amended, witnessed on the drain trace of four items. -/
theorem c3_shutdown_drain_witness :
    (([⟨0, true, [1, 2, 3, 4]⟩] : List (Emit ℕ)).filter
        (fun em => em.fromDrain)).length ≤ 1 ∧
    ((⟨0, true, [1, 2, 3, 4]⟩ : Emit ℕ).batch ≠ [] ∧
      (⟨0, true, [1, 2, 3, 4]⟩ : Emit ℕ).batch.length ≤ tinyCfg.cap) :=
  have h := c3_shutdown_drain_amended tinyCfg (by decide) drainTrace4
    ⟨[], true, true, true, Ctrl.done, [], none, 0, [⟨0, true, [1, 2, 3, 4]⟩]⟩
    (by decide)
  ⟨h.1, h.2 ⟨0, true, [1, 2, 3, 4]⟩ (by decide) rfl⟩

/-- C4: evaluation of scenario S3 on the code.  With maxSize 6 and the
default upperRatio 0.5, the flush condition of line 202 fires as soon as
the batch reaches int(6·0.5) = 3 items, so 9 items submitted back-to-back
(no timer expiry) are delivered in three batches of three — in submission
order, but not in at most 2 batches with a first batch of 6 as the claim
and the repository's own ContinuousProcessing test expect. -/
theorem c4_s3_flush_at_upper_threshold :
    (run s3Cfg s3Trace).map (fun s => s.out.map (fun em => em.batch)) =
      some [[1, 2, 3], [4, 5, 6], [7, 8, 9]] ∧
    ([[1, 2, 3], [4, 5, 6], [7, 8, 9]] : List (List ℕ)).flatten =
      [1, 2, 3, 4, 5, 6, 7, 8, 9] ∧
    s3Cfg.upperThreshold = 3 ∧ ¬ ((3:Nat) = 6) ∧ ¬ ((3:Nat) ≤ 2) := by decide

/-- C5: Add error behaviour (asyncbatch.go lines 145-155): when the
processor is closed Add returns the closed error and does not enqueue;
otherwise the non-blocking send succeeds exactly when the channel is below
capacity, returning nil and appending the task, and returns the
queue-full error leaving the channel unchanged when it is at capacity; the
two error kinds are distinct. -/
theorem c5_add_error_behaviour {T : Type} (closedFlag : Bool) (cap : Nat)
    (queue : List T) (task : T) :
    (closedFlag = true →
      addGo closedFlag cap queue task = (some AddErr.closed, queue)) ∧
    (closedFlag = false → queue.length < cap →
      addGo closedFlag cap queue task = (none, queue ++ [task])) ∧
    (closedFlag = false → cap ≤ queue.length →
      addGo closedFlag cap queue task = (some AddErr.queueFull, queue)) ∧
    AddErr.closed ≠ AddErr.queueFull := by
  refine ⟨?_, ?_, ?_, by decide⟩
  · intro hc
    simp [addGo, hc]
  · intro hc hlen
    simp [addGo, hc, hlen]
  · intro hc hlen
    simp [addGo, hc, Nat.not_lt.mpr hlen]

/-- C5, witnessed at a closed processor, a successful enqueue and a full
channel. -/
theorem c5_add_error_behaviour_witness :
    addGo true 2 [5] 9 = (some AddErr.closed, [5]) ∧
    addGo false 2 [5] 9 = (none, [5, 9]) ∧
    addGo false 1 [5] 9 = (some AddErr.queueFull, [5]) :=
  ⟨(c5_add_error_behaviour true 2 [5] 9).1 rfl,
   (c5_add_error_behaviour false 2 [5] 9).2.1 rfl (by decide),
   (c5_add_error_behaviour false 1 [5] 9).2.2.1 rfl (by decide)⟩

/-- C6: refutation of the constructor rejecting non-positive max_size.
WithMaxSize(-5) is silently discarded by its own guard, NewBatchProcessor
performs no maxSize validation at all (lines 107-125), and construction
succeeds with the default maxSize 1000. -/
theorem c6_counterexample :
    newBatchProcessor true [withMaxSize (-5)] = Except.ok defaultConfig ∧
    defaultConfig.maxSize = 1000 := by
  constructor
  · have happ : applyOpts [withMaxSize (-5)] = defaultConfig := by
      simp only [applyOpts, List.foldl_cons, List.foldl_nil]
      unfold withMaxSize
      rw [if_neg (by norm_num)]
    rw [newBatchProcessor, happ, validate_default]
  · rfl

/-- C6 amended: a max_size option that is zero or negative is ignored at
option-application time; New performs no maxSize check and, with all other
options at their defaults, succeeds with maxSize left at 1000. -/
theorem c6_maxsize_option_ignored (size : Int) (hsize : size ≤ 0) :
    withMaxSize size defaultConfig = defaultConfig ∧
    newBatchProcessor true [withMaxSize size] = Except.ok defaultConfig := by
  have h1 : withMaxSize size defaultConfig = defaultConfig := by
    unfold withMaxSize
    rw [if_neg (by omega)]
  refine ⟨h1, ?_⟩
  have happ : applyOpts [withMaxSize size] = defaultConfig := by
    simp only [applyOpts, List.foldl_cons, List.foldl_nil]
    exact h1
  rw [newBatchProcessor, happ, validate_default]

/-- C6 amended, witnessed at size -5. -/
theorem c6_maxsize_option_ignored_witness :
    withMaxSize (-5) defaultConfig = defaultConfig ∧
    newBatchProcessor true [withMaxSize (-5)] = Except.ok defaultConfig :=
  c6_maxsize_option_ignored (-5) (by norm_num)

/-- C7: refutation of the raises-iff claim for lower_ratio in both
directions: 0.9 lies inside (0, 1] yet New fails (with the ratio-ordering
error, because the default upperRatio is 0.5), and 2 lies outside (0, 1]
yet New succeeds, the option guard having discarded the value. -/
theorem c7_counterexample :
    newBatchProcessor true [withLowerRat (9/10)] =
      Except.error "upperRatio must be greater than or equal to lowerRatio" ∧
    ((0:ℚ) < 9/10 ∧ (9/10:ℚ) ≤ 1) ∧
    newBatchProcessor true [withLowerRat 2] = Except.ok defaultConfig := by
  refine ⟨?_, by norm_num, ?_⟩
  · have happ : applyOpts [withLowerRat (9/10)] =
        { defaultConfig with lowerRat := 9/10 } := by
      simp only [applyOpts, List.foldl_cons, List.foldl_nil]
      unfold withLowerRat
      rw [if_pos (by norm_num)]
    rw [newBatchProcessor, happ, validate_default_lowerRat (9/10) (by norm_num)
      (by norm_num), if_pos (by norm_num)]
  · have happ : applyOpts [withLowerRat 2] = defaultConfig := by
      simp only [applyOpts, List.foldl_cons, List.foldl_nil]
      unfold withLowerRat
      rw [if_neg (by norm_num)]
    rw [newBatchProcessor, happ, validate_default]

/-- C7 amended: New never returns the lowerRatio ConfigError for any
supplied lower_ratio, because the WithLowerRatio guard discards every
out-of-range value, leaving the valid default 0.1; with all other options
at their defaults, New succeeds exactly when the supplied value is outside
(0, 1] (hence ignored) or at most the default upperRatio 0.5 — values in
(0.5, 1] fail the ordering check instead. -/
theorem c7_lower_ratio_validation_amended (r : ℚ) :
    newBatchProcessor true [withLowerRat r] ≠
      Except.error "lowerRatio must be between 0 and 1" ∧
    (exceptOk (newBatchProcessor true [withLowerRat r]) = true ↔
      (¬ (0 < r ∧ r ≤ 1) ∨ r ≤ 1/2)) := by
  have happ : applyOpts [withLowerRat r] = withLowerRat r defaultConfig := by
    simp only [applyOpts, List.foldl_cons, List.foldl_nil]
  by_cases h : 0 < r ∧ r ≤ 1
  · have happ2 : applyOpts [withLowerRat r] =
        { defaultConfig with lowerRat := r } := by
      rw [happ]
      unfold withLowerRat
      rw [if_pos h]
    have hval := validate_default_lowerRat r h.1 h.2
    by_cases h2 : (1:ℚ)/2 < r
    · have hres : newBatchProcessor true [withLowerRat r] =
          Except.error "upperRatio must be greater than or equal to lowerRatio" := by
        rw [newBatchProcessor, happ2, hval, if_pos h2]
      constructor
      · rw [hres]
        intro hcon
        exact absurd (Except.error.inj hcon) (by decide)
      · rw [hres]
        simp only [exceptOk]
        constructor
        · intro hcon
          exact absurd hcon (by decide)
        · rintro (hc | hc)
          · exact absurd h hc
          · exact absurd h2 (not_lt.mpr hc)
    · have hres : newBatchProcessor true [withLowerRat r] =
          Except.ok { defaultConfig with lowerRat := r } := by
        rw [newBatchProcessor, happ2, hval, if_neg h2]
      constructor
      · rw [hres]
        exact fun hcon => Except.noConfusion hcon
      · rw [hres]
        simp only [exceptOk]
        constructor
        · intro _
          exact Or.inr (not_lt.mp h2)
        · intro _
          trivial
  · have happ2 : applyOpts [withLowerRat r] = defaultConfig := by
      rw [happ]
      unfold withLowerRat
      rw [if_neg h]
    have hres : newBatchProcessor true [withLowerRat r] =
        Except.ok defaultConfig := by
      rw [newBatchProcessor, happ2, validate_default]
    constructor
    · rw [hres]
      exact fun hcon => Except.noConfusion hcon
    · rw [hres]
      simp only [exceptOk]
      constructor
      · intro _
        exact Or.inl h
      · intro _
        trivial

/-- C7 amended, witnessed at lower_ratio 1/4 (in range, below the default
upperRatio). -/
theorem c7_lower_ratio_validation_amended_witness :
    newBatchProcessor true [withLowerRat (1/4)] ≠
      Except.error "lowerRatio must be between 0 and 1" ∧
    (exceptOk (newBatchProcessor true [withLowerRat (1/4)]) = true ↔
      (¬ ((0:ℚ) < 1/4 ∧ (1/4:ℚ) ≤ 1) ∨ (1/4:ℚ) ≤ 1/2)) :=
  c7_lower_ratio_validation_amended (1/4)

/-- C8: refutation trace for the absolute underfilled deadline.  The worker
enters the underfilled wait at instant 5 with deadline 25; a second item is
received at instant 24, and instead of keeping the deadline 25 in force the
loop re-arms the timer at fixedWait (line 209), a probe that expires into a
fresh full underfilled wait, so the batch is flushed only at instant
49 > 25 although no flush condition ever held. -/
theorem c8_counterexample :
    (run bigCfg underfillPre).map (fun s => (s.ctrl, s.deadline, s.batch)) =
      some (Ctrl.usel, some 25, [1]) ∧
    (run bigCfg underfillTrace).map
        (fun s => s.out.map (fun em => (em.time, em.batch))) =
      some [(49, [1, 2])] ∧
    ¬ ((49:Int) ≤ 25) := by decide

/-- C8 amended: an item received during the underfilled wait is appended
with the running timer untouched (asyncbatch.go line 264), but control
returns to the loop top, whose initTimer call re-arms the timer at
fixedWait from the current instant (line 209); the underfilled deadline is
therefore abandoned rather than absolute. -/
theorem c8_underfilled_timer_rearmed {T : Type} (c : MConfig)
    (s s1 s2 s3 : MState T) (x : T) (rest : List T) (t t2 : Int)
    (hq : s.queue = x :: rest)
    (h1 : step c s (Ev.urecv t) = some s1)
    (h2 : step c s1 Ev.passStop = some s2)
    (h3 : step c s2 (Ev.armTimer t2) = some s3) :
    s1.batch = s.batch ++ [x] ∧ s1.deadline = s.deadline ∧
    s3.deadline = some (t2 + c.fixedWait) := by
  rcases hd : s.deadline with _ | d
  · simp only [step, hq, hd] at h1
    exact Option.noConfusion h1
  · simp only [step, hq, hd] at h1
    split at h1
    · cases h1
      simp only [step] at h2
      split at h2
      · cases h2
        simp only [step] at h3
        split at h3
        · cases h3
          exact ⟨rfl, rfl, rfl⟩
        · exact Option.noConfusion h3
      · exact Option.noConfusion h2
    · exact Option.noConfusion h1

/-- C8 amended, witnessed on the concrete states of the refutation trace:
the receive keeps deadline 25 untouched, and the subsequent initTimer
re-arms at 24 + 5 = 29. -/
theorem c8_underfilled_timer_rearmed_witness :
    (⟨[], false, false, false, Ctrl.top, [1, 2], some 25, 24, []⟩ :
        MState ℕ).batch =
      (⟨[2], false, false, false, Ctrl.usel, [1], some 25, 5, []⟩ :
        MState ℕ).batch ++ [2] ∧
    (⟨[], false, false, false, Ctrl.top, [1, 2], some 25, 24, []⟩ :
        MState ℕ).deadline =
      (⟨[2], false, false, false, Ctrl.usel, [1], some 25, 5, []⟩ :
        MState ℕ).deadline ∧
    (⟨[], false, false, false, Ctrl.sel, [1, 2], some 29, 24, []⟩ :
        MState ℕ).deadline = some (24 + bigCfg.fixedWait) :=
  c8_underfilled_timer_rearmed bigCfg
    ⟨[2], false, false, false, Ctrl.usel, [1], some 25, 5, []⟩
    ⟨[], false, false, false, Ctrl.top, [1, 2], some 25, 24, []⟩
    ⟨[], false, false, false, Ctrl.chk, [1, 2], some 25, 24, []⟩
    ⟨[], false, false, false, Ctrl.sel, [1, 2], some 29, 24, []⟩
    2 [] 24 24 rfl (by decide) (by decide) (by decide)

/-- C9: the callback is never invoked on an empty batch: along every
schedule, every recorded invocation — worker-loop flush, timer-expiry
flush, stop flush and the Shutdown residual drain alike — carries at least
one item (flushBatch guards on len > 0 at lines 226-230, the drain at
lines 170-172). -/
theorem c9_nonempty_batches {T : Type} (c : MConfig) (hwf : c.wf)
    (evs : List (Ev T)) (s : MState T) (h : run c evs = some s) :
    ∀ em ∈ s.out, em.batch ≠ [] := by
  intro em hem
  exact ((inv_run hwf h).2.2.2.2.1 em hem).1

/-- C9, witnessed on the first batch of the S3 schedule. -/
theorem c9_nonempty_batches_witness :
    (⟨0, false, [1, 2, 3]⟩ : Emit ℕ).batch ≠ [] :=
  c9_nonempty_batches s3Cfg (by decide) s3Trace
    ⟨[], false, false, false, Ctrl.top, [], none, 0,
      [⟨0, false, [1, 2, 3]⟩, ⟨0, false, [4, 5, 6]⟩, ⟨0, false, [7, 8, 9]⟩]⟩
    (by decide) ⟨0, false, [1, 2, 3]⟩ (by decide)

/-- C10: out-of-range option values are silently ignored by every With...
guard (on any current configuration, in particular leaving the defaults
maxSize 1000, upperRatio 0.5, lowerRatio 0.1, fixedWait 5ms,
underfilledWait 20ms, numWorkers 1 in place), and New(worker,
WithMaxSize(-5)) succeeds with a configuration whose maxSize getter value
is the default 1000. -/
theorem c10_out_of_range_options_ignored :
    (∀ (size : Int) (bp : BPConfig), size ≤ 0 → withMaxSize size bp = bp) ∧
    (∀ (r : ℚ) (bp : BPConfig), ¬ (0 < r ∧ r ≤ 1) → withLowerRat r bp = bp) ∧
    (∀ (r : ℚ) (bp : BPConfig), ¬ (0 < r ∧ r ≤ 1) → withUpperRat r bp = bp) ∧
    (∀ (d : Int) (bp : BPConfig), d ≤ 0 → withFixedWait d bp = bp) ∧
    (∀ (d : Int) (bp : BPConfig), d ≤ 0 → withUnderfilledWait d bp = bp) ∧
    (∀ (n : Int) (bp : BPConfig), n ≤ 0 → withNumWorkers n bp = bp) ∧
    (defaultConfig.maxSize = 1000 ∧ defaultConfig.upperRat = 1/2 ∧
      defaultConfig.lowerRat = 1/10 ∧ defaultConfig.fixedWait = 5000000 ∧
      defaultConfig.underfilledWait = 20000000 ∧
      defaultConfig.numWorkers = 1) ∧
    newBatchProcessor true [withMaxSize (-5)] = Except.ok defaultConfig := by
  refine ⟨?_, ?_, ?_, ?_, ?_, ?_, ⟨rfl, rfl, rfl, rfl, rfl, rfl⟩, ?_⟩
  · intro size bp hs
    unfold withMaxSize
    rw [if_neg (by omega)]
  · intro r bp hr
    unfold withLowerRat
    rw [if_neg hr]
  · intro r bp hr
    unfold withUpperRat
    rw [if_neg hr]
  · intro d bp hd
    unfold withFixedWait
    rw [if_neg (by omega)]
  · intro d bp hd
    unfold withUnderfilledWait
    rw [if_neg (by omega)]
  · intro n bp hn
    unfold withNumWorkers
    rw [if_neg (by omega)]
  · have happ : applyOpts [withMaxSize (-5)] = defaultConfig := by
      simp only [applyOpts, List.foldl_cons, List.foldl_nil]
      unfold withMaxSize
      rw [if_neg (by norm_num)]
    rw [newBatchProcessor, happ, validate_default]

/-- C10, witnessed for each option at a concrete out-of-range value. -/
theorem c10_out_of_range_options_ignored_witness :
    withMaxSize (-5) defaultConfig = defaultConfig ∧
    withLowerRat 2 defaultConfig = defaultConfig ∧
    withUpperRat 2 defaultConfig = defaultConfig ∧
    withFixedWait (-1) defaultConfig = defaultConfig ∧
    withUnderfilledWait 0 defaultConfig = defaultConfig ∧
    withNumWorkers (-3) defaultConfig = defaultConfig :=
  ⟨c10_out_of_range_options_ignored.1 (-5) defaultConfig (by norm_num),
   c10_out_of_range_options_ignored.2.1 2 defaultConfig (by norm_num),
   c10_out_of_range_options_ignored.2.2.1 2 defaultConfig (by norm_num),
   c10_out_of_range_options_ignored.2.2.2.1 (-1) defaultConfig (by norm_num),
   c10_out_of_range_options_ignored.2.2.2.2.1 0 defaultConfig (by norm_num),
   c10_out_of_range_options_ignored.2.2.2.2.2.1 (-3) defaultConfig (by norm_num)⟩

end AsyncBatch

